import Mathlib

/-!
Shallow embedding of the Reddit keyword monitor (`reddit_monitor.go` and its
two in-repo variants) and proofs of the spec's claims about it.

Modelling conventions:
* Go strings are modelled as `List Char` (one entry per rune); the program's
  configuration and all claim inputs are ASCII, and for ASCII `Char.toLower`
  agrees with Go's `strings.ToLower` and RE2's `(?i)` simple case folding.
* The regexp `(?i)\b<QuoteMeta kw>\b` used by `findKeywords` is embedded by
  `matchWholeWord`: the keyword characters are literal (QuoteMeta), `\b` is
  RE2's ASCII word boundary (a transition between `[0-9A-Za-z_]` and
  non-word / text edge).
* External effects (MongoDB FindOne / InsertOne, SMTP send, HTTP fetch) are
  embedded with explicit outcome oracles; the Dedup Store is the list of
  recorded permalinks.
-/

namespace RMonitor

/-- ASCII word character class of RE2's word boundary: digits, letters and
the underscore (`[0-9A-Za-z_]`). -/
def isWordChar (c : Char) : Bool :=
  c.isAlphanum || c == '_'

/-- Lowercasing of a rune string, as `strings.ToLower` does on ASCII input. -/
def toLowerStr (s : List Char) : List Char := s.map Char.toLower

/-- Whether the character at index `i` of `t` is a word character; positions
outside the text count as non-word, as RE2 treats the text edges. -/
def wordAtPos (t : List Char) (i : Nat) : Bool :=
  match t[i]? with
  | some c => isWordChar c
  | none => false

/-- RE2 word boundary `\b` at position `p` of `t` (a position sits between
characters; `p = 0` is the start edge, `p = t.length` the end edge): the
wordness of the character before differs from the wordness of the one after. -/
def boundaryAt (t : List Char) (p : Nat) : Bool :=
  (match p with
   | 0 => false
   | q + 1 => wordAtPos t q) != wordAtPos t p

/-- Match of the pattern `\b kw \b` (keyword characters literal) at position
`i` of text `t`: the keyword occurs at `i` and both ends sit on a word
boundary. -/
def matchWholeWordAt (t kw : List Char) (i : Nat) : Bool :=
  decide (i + kw.length ≤ t.length) &&
  decide ((t.drop i).take kw.length = kw) &&
  boundaryAt t i && boundaryAt t (i + kw.length)

/-- `re.MatchString` for the pattern `\b kw \b`: some position of `t`
carries a whole-word occurrence of `kw`. -/
def matchWholeWord (t kw : List Char) : Bool :=
  (List.range (t.length + 1)).any (fun i => matchWholeWordAt t kw i)

/-- Embedding of `findKeywords`, generalised over the `regexp.Compile`
failure branch of the source: `compileFails kw` says the pattern built for
`kw` fails to compile, in which case the keyword is skipped (`continue`)
and the remaining keywords are still checked. The source lowercases the
text once, then tests `(?i)\b<QuoteMeta kw>\b` against it and appends the
keyword in its original casing on a match. -/
def findKeywordsGen (compileFails : List Char → Bool) (text : List Char)
    (keywords : List (List Char)) : List (List Char) :=
  keywords.filter (fun kw =>
    !compileFails kw && matchWholeWord (toLowerStr text) (toLowerStr kw))

/-- the `findKeywords` of `reddit_monitor.go`: for ASCII literal keywords
`regexp.Compile` on the QuoteMeta-escaped pattern never fails, so the
compile-failure oracle is constantly `false`. -/
def findKeywords (text : List Char) (keywords : List (List Char)) :
    List (List Char) :=
  findKeywordsGen (fun _ => false) text keywords

/-- the configured keyword list of the source: `var keywords = []string{"VA","leads"}`. -/
def keywordsConfig : List (List Char) := [(r"VA").toList, (r"leads").toList]

/-- a Reddit post's relevant fields (struct `Post`). The `created_utc`
field (a float64) is carried by the source struct but never read by the
monitor's logic, so it is not part of the embedding. -/
structure Post where
  title : List Char
  selftext : List Char
  permalink : List Char
  subreddit : List Char
deriving DecidableEq, Repr

/-- a Reddit comment's relevant fields (struct `Comment`); `created_utc`
is omitted for the same reason as in `Post`. -/
structure Comment where
  body : List Char
  permalink : List Char
  subreddit : List Char
deriving DecidableEq, Repr

/-- the text handed to `findKeywords` for a post:
`text := post.Title + " " + post.Selftext`. -/
def postText (p : Post) : List Char := p.title ++ ' ' :: p.selftext

/-- the Dedup Store state: the set of permalinks present in the
`processed_items` collection (unique index on `permalink`). -/
abbrev Store := List (List Char)

/-- outcome classification of the record step
(`InsertOne` plus the `IsDuplicateKeyError` absorption). -/
inductive RecordResult where
  | ok               -- inserted, identifier newly recorded
  | duplicateAbsorbed -- duplicate key error, logged as Info and absorbed
  | storeError        -- any other insertion error, logged, nothing recorded
deriving DecidableEq, Repr

/-- the record step of `processPosts` / `processComments`: `InsertOne` of
the permalink, with a duplicate-key error treated like success (logged as
already processed) and any other error (`fails = true`) logged and leaving
the store unchanged. -/
def recordId (store : Store) (id : List Char) (fails : Bool) :
    Store × RecordResult :=
  if fails then (store, .storeError)
  else if id ∈ store then (store, .duplicateAbsorbed)
  else (id :: store, .ok)

/-- outcomes of the external calls made while processing one item:
whether the `FindOne` dedup query returns an error other than
`ErrNoDocuments`, whether `sendEmail` returns an error, and whether
`InsertOne` fails with an error other than a duplicate key. -/
structure ItemOracle where
  findErr : Bool
  sendErr : Bool
  insertErr : Bool
deriving DecidableEq, Repr

/-- observable external events of a processing step: a `sendEmail` call for
an item (with whether it succeeded) and a successful insertion of an
identifier into the Dedup Store. -/
inductive Event where
  | notifyCall (id : List Char) (ok : Bool)
  | recorded (id : List Char)
deriving DecidableEq, Repr

/-- identifiers for which a Notifier (`sendEmail`) call happened in a trace,
successful or not. -/
def notifiedIds (es : List Event) : List (List Char) :=
  es.filterMap fun e =>
    match e with
    | .notifyCall id _ => some id
    | .recorded _ => none

/-- one iteration of the `processPosts` loop body of `reddit_monitor.go`:
`FindOne` on the permalink (error: log and skip; found: skip); then
`findKeywords` on title+" "+selftext; on a match `sendEmail`, and only on
email success the record step. Returns the store afterwards and the events
of the step. -/
def processPost (kws : List (List Char)) (store : Store) (o : ItemOracle)
    (p : Post) : Store × List Event :=
  if o.findErr then (store, [])
  else if p.permalink ∈ store then (store, [])
  else if (findKeywords (postText p) kws).isEmpty then (store, [])
  else if o.sendErr then (store, [.notifyCall p.permalink false])
  else
    let r := recordId store p.permalink o.insertErr
    (r.1, .notifyCall p.permalink true ::
      (if r.2 = .ok then [.recorded p.permalink] else []))

/-- `processPosts`: the loop over the fetched posts, each paired with the
outcomes of its external calls, threading the store and concatenating the
events. -/
def processPosts (kws : List (List Char)) :
    Store → List (Post × ItemOracle) → Store × List Event
  | store, [] => (store, [])
  | store, (p, o) :: rest =>
    let r := processPost kws store o p
    let r2 := processPosts kws r.1 rest
    (r2.1, r.2 ++ r2.2)

/-- one iteration of the `processComments` loop body: identical to the post
case except that the matched text is the comment body alone. -/
def processComment (kws : List (List Char)) (store : Store) (o : ItemOracle)
    (c : Comment) : Store × List Event :=
  if o.findErr then (store, [])
  else if c.permalink ∈ store then (store, [])
  else if (findKeywords c.body kws).isEmpty then (store, [])
  else if o.sendErr then (store, [.notifyCall c.permalink false])
  else
    let r := recordId store c.permalink o.insertErr
    (r.1, .notifyCall c.permalink true ::
      (if r.2 = .ok then [.recorded c.permalink] else []))

/-- `processComments`: the loop over the fetched comments. -/
def processComments (kws : List (List Char)) :
    Store → List (Comment × ItemOracle) → Store × List Event
  | store, [] => (store, [])
  | store, (c, o) :: rest =>
    let r := processComment kws store o c
    let r2 := processComments kws r.1 rest
    (r2.1, r.2 ++ r2.2)

/-- outcomes of one cycle of the main loop: `none` for an item kind means
the fetch for that kind returned an error (logged, that kind skipped this
cycle); `some` carries the fetched items with their per-item call
outcomes. -/
structure CycleOracle where
  posts : Option (List (Post × ItemOracle))
  comments : Option (List (Comment × ItemOracle))

/-- one cycle of the `for` loop in `main`: fetch posts (process them unless
the fetch errored), then fetch comments (likewise), then sleep. -/
def runCycle (kws : List (List Char)) (store : Store) (c : CycleOracle) :
    Store × List Event :=
  let r1 := match c.posts with
    | none => (store, [])
    | some ps => processPosts kws store ps
  let r2 := match c.comments with
    | none => (r1.1, [])
    | some cs => processComments kws r1.1 cs
  (r2.1, r1.2 ++ r2.2)

/-- the main loop, run over a finite schedule of cycles. -/
def runCycles (kws : List (List Char)) :
    Store → List CycleOracle → Store × List Event
  | store, [] => (store, [])
  | store, c :: rest =>
    let r := runCycle kws store c
    let r2 := runCycles kws r.1 rest
    (r2.1, r.2 ++ r2.2)

/-- the file-backed variant's `saveProcessedIDs`: the persisted layout is
the JSON object mapping each recorded permalink to `true`
(`json.MarshalIndent(processedIDs, ...)`). -/
def saveProcessedIDs (store : Store) : List (List Char × Bool) :=
  store.map fun id => (id, true)

/-- the file-backed variant's `loadProcessedIDs` on an existing file:
`json.Unmarshal` into `map[string]bool` restores every key of the persisted
object (membership checks only test key existence). -/
def loadProcessedIDs (data : List (List Char × Bool)) : Store :=
  data.map fun kv => kv.1

/-- error cases of `fetchPosts` / `fetchComments`. -/
inductive FetchError where
  | transport          -- request creation or `httpClient.Do` failed
  | badStatus (code : Nat) -- `resp.StatusCode != http.StatusOK`
  | malformed          -- JSON decoding of the response body failed
deriving DecidableEq, Repr

/-- one child of the post listing: the wrapper holding `Data Post`. -/
structure PostChild where
  data : Post
deriving DecidableEq, Repr

/-- the decoded post listing payload `response.Data.Children`. -/
structure PostListing where
  children : List PostChild
deriving DecidableEq, Repr

/-- the HTTP exchange behind one `fetchPosts` call: whether the transport
round trip failed, the status code otherwise, and the JSON decoding result
of the body (`none` when the payload is malformed). -/
structure HttpResult where
  transportErr : Bool
  status : Nat
  payload : Option PostListing

/-- `fetchPosts`: error on transport failure, on a status other than 200
and on a malformed payload; otherwise the children's posts in the order the
response listed them. -/
def fetchPosts (r : HttpResult) : Except FetchError (List Post) :=
  if r.transportErr then .error .transport
  else if r.status ≠ 200 then .error (.badStatus r.status)
  else match r.payload with
    | none => .error .malformed
    | some listing => .ok (listing.children.map fun ch => ch.data)

/-- concrete post used to exhibit the record-step gap of the dedup
invariant: it matches the configured keywords, the email send succeeds and
the `InsertOne` fails with a non-duplicate error. -/
def cePost : Post :=
  ⟨(r"Hiring a VA").toList, [], (r"/r/test/1").toList, (r"test").toList⟩

/-- call outcomes for `cePost`: dedup query fine, email send fine, insert
fails. -/
def ceOracle : ItemOracle := ⟨false, false, true⟩

/-- concrete comment used to instantiate per-item statements. -/
def ceComment : Comment :=
  ⟨(r"need leads").toList, (r"/r/test/3").toList, (r"test").toList⟩

/-- concrete post whose title ends in a word and whose body begins one:
with a keyword containing a space a match can straddle the title/body
junction. -/
def junctionPost : Post :=
  ⟨(r"Hiring a VA").toList, (r"for leads").toList,
   (r"/r/test/2").toList, (r"test").toList⟩

/-- a keyword containing a space, whose only occurrence in
`postText junctionPost` straddles the title/body junction. -/
def junctionKeyword : List Char := (r"va for").toList

end RMonitor

namespace RMonitor

/-! Helper lemmas about one post-processing step and its lifts to the item
loop, the cycle and the main loop. -/

/-- Case description of one post-processing step: either the store is left
unchanged, or the post's permalink was fresh, got recorded, and the store
gained exactly it. -/
theorem postStore_cases (kws : List (List Char)) (store : Store)
    (o : ItemOracle) (p : Post) :
    (processPost kws store o p).1 = store ∨
    ((processPost kws store o p).1 = p.permalink :: store ∧
      Event.recorded p.permalink ∈ (processPost kws store o p).2 ∧
      p.permalink ∉ store) := by
  unfold processPost recordId
  split_ifs with h1 h2 h3 h4 h5 <;> simp_all

/-- Every Notifier call of one post-processing step is for the post's own
permalink, and only happens when that permalink is absent from the store. -/
theorem postNotify_fresh (kws : List (List Char)) (store : Store)
    (o : ItemOracle) (p : Post) (id : List Char) (b : Bool)
    (h : Event.notifyCall id b ∈ (processPost kws store o p).2) :
    id = p.permalink ∧ id ∉ store := by
  unfold processPost recordId at h
  split_ifs at h with h1 h2 h3 h4 h5 <;> simp_all

/-- A recording during one post-processing step happens only after a
successful Notifier call for the same identifier, which was fresh, and the
store afterwards is exactly the old one plus that identifier. -/
theorem postRecorded_eq (kws : List (List Char)) (store : Store)
    (o : ItemOracle) (p : Post) (id : List Char)
    (h : Event.recorded id ∈ (processPost kws store o p).2) :
    Event.notifyCall id true ∈ (processPost kws store o p).2 ∧
    (processPost kws store o p).1 = id :: store ∧ id ∉ store := by
  unfold processPost recordId at h ⊢
  split_ifs at h ⊢ with h1 h2 h3 h4 h5 <;> simp_all

/-- Store membership is preserved by one post-processing step. -/
theorem postMono (kws : List (List Char)) (store : Store)
    (o : ItemOracle) (p : Post) (id : List Char) (h : id ∈ store) :
    id ∈ (processPost kws store o p).1 := by
  rcases postStore_cases kws store o p with hc | ⟨hc, _, _⟩ <;> rw [hc]
  · exact h
  · exact List.mem_cons_of_mem _ h

/-- Membership after one post-processing step: previously present, or
recorded during the step. -/
theorem postMem_iff (kws : List (List Char)) (store : Store)
    (o : ItemOracle) (p : Post) (id : List Char) :
    id ∈ (processPost kws store o p).1 ↔
      id ∈ store ∨ Event.recorded id ∈ (processPost kws store o p).2 := by
  constructor
  · intro h
    rcases postStore_cases kws store o p with hc | ⟨hc, hrec, _⟩
    · exact Or.inl (hc ▸ h)
    · rw [hc] at h
      rcases List.mem_cons.mp h with rfl | h
      · exact Or.inr hrec
      · exact Or.inl h
  · rintro (h | h)
    · exact postMono kws store o p id h
    · rw [(postRecorded_eq kws store o p id h).2.1]
      exact List.mem_cons_self _ _

/-- Store membership is preserved by the post loop. -/
theorem postsMono (kws : List (List Char)) (id : List Char) :
    ∀ (store : Store) (ps : List (Post × ItemOracle)), id ∈ store →
      id ∈ (processPosts kws store ps).1
  | _, [], h => h
  | store, (p, o) :: rest, h =>
    postsMono kws id _ rest (postMono kws store o p id h)

/-- Every Notifier call of the post loop is for an identifier that was
absent from the store when the loop started. -/
theorem postsNotify_fresh (kws : List (List Char)) (id : List Char) (b : Bool) :
    ∀ (store : Store) (ps : List (Post × ItemOracle)),
      Event.notifyCall id b ∈ (processPosts kws store ps).2 → id ∉ store := by
  intro store ps
  induction ps generalizing store with
  | nil => intro h; simp [processPosts] at h
  | cons x rest ih =>
    obtain ⟨p, o⟩ := x
    intro h hmem
    simp only [processPosts, List.mem_append] at h
    rcases h with h | h
    · exact (postNotify_fresh kws store o p id b h).2 hmem
    · exact ih _ h (postMono kws store o p id hmem)

/-- A recording by the post loop comes with a successful Notifier call for
the same identifier in the same run. -/
theorem postsRecorded_notify (kws : List (List Char)) (id : List Char) :
    ∀ (store : Store) (ps : List (Post × ItemOracle)),
      Event.recorded id ∈ (processPosts kws store ps).2 →
      Event.notifyCall id true ∈ (processPosts kws store ps).2 := by
  intro store ps
  induction ps generalizing store with
  | nil => intro h; simp [processPosts] at h
  | cons x rest ih =>
    obtain ⟨p, o⟩ := x
    intro h
    simp only [processPosts, List.mem_append] at h ⊢
    rcases h with h | h
    · exact Or.inl (postRecorded_eq kws store o p id h).1
    · exact Or.inr (ih _ h)

/-- Membership after the post loop: previously present, or recorded during
the run. -/
theorem postsMem_iff (kws : List (List Char)) (id : List Char) :
    ∀ (store : Store) (ps : List (Post × ItemOracle)),
      id ∈ (processPosts kws store ps).1 ↔
        id ∈ store ∨ Event.recorded id ∈ (processPosts kws store ps).2 := by
  intro store ps
  induction ps generalizing store with
  | nil => simp [processPosts]
  | cons x rest ih =>
    obtain ⟨p, o⟩ := x
    simp only [processPosts, List.mem_append]
    rw [ih, postMem_iff]
    tauto

/-- Case description of one comment-processing step. -/
theorem commentStore_cases (kws : List (List Char)) (store : Store)
    (o : ItemOracle) (c : Comment) :
    (processComment kws store o c).1 = store ∨
    (processComment kws store o c).1 = c.permalink :: store := by
  unfold processComment recordId
  split_ifs with h1 h2 h3 h4 h5 <;> simp_all

/-- Every Notifier call of one comment-processing step is for the comment's
own permalink, absent from the store previously. -/
theorem commentNotify_fresh (kws : List (List Char)) (store : Store)
    (o : ItemOracle) (c : Comment) (id : List Char) (b : Bool)
    (h : Event.notifyCall id b ∈ (processComment kws store o c).2) :
    id = c.permalink ∧ id ∉ store := by
  unfold processComment recordId at h
  split_ifs at h with h1 h2 h3 h4 h5 <;> simp_all

/-- Store membership is preserved by one comment-processing step. -/
theorem commentMono (kws : List (List Char)) (store : Store)
    (o : ItemOracle) (c : Comment) (id : List Char) (h : id ∈ store) :
    id ∈ (processComment kws store o c).1 := by
  rcases commentStore_cases kws store o c with hc | hc <;> rw [hc]
  · exact h
  · exact List.mem_cons_of_mem _ h

/-- Store membership is preserved by the comment loop. -/
theorem commentsMono (kws : List (List Char)) (id : List Char) :
    ∀ (store : Store) (cs : List (Comment × ItemOracle)), id ∈ store →
      id ∈ (processComments kws store cs).1
  | _, [], h => h
  | store, (c, o) :: rest, h =>
    commentsMono kws id _ rest (commentMono kws store o c id h)

/-- Every Notifier call of the comment loop is for an identifier absent
from the store when the loop started. -/
theorem commentsNotify_fresh (kws : List (List Char)) (id : List Char)
    (b : Bool) :
    ∀ (store : Store) (cs : List (Comment × ItemOracle)),
      Event.notifyCall id b ∈ (processComments kws store cs).2 → id ∉ store := by
  intro store cs
  induction cs generalizing store with
  | nil => intro h; simp [processComments] at h
  | cons x rest ih =>
    obtain ⟨c, o⟩ := x
    intro h hmem
    simp only [processComments, List.mem_append] at h
    rcases h with h | h
    · exact (commentNotify_fresh kws store o c id b h).2 hmem
    · exact ih _ h (commentMono kws store o c id hmem)

/-- Store membership is preserved by one full cycle. -/
theorem cycleMono (kws : List (List Char)) (store : Store) (c : CycleOracle)
    (id : List Char) (h : id ∈ store) : id ∈ (runCycle kws store c).1 := by
  unfold runCycle
  rcases c with ⟨ps, cs⟩
  cases ps <;> cases cs <;>
    simp_all [postsMono, commentsMono, postsMono kws id store]

/-- Every Notifier call of one full cycle is for an identifier absent from
the store when the cycle started. -/
theorem cycleNotify_fresh (kws : List (List Char)) (store : Store)
    (c : CycleOracle) (id : List Char) (b : Bool)
    (h : Event.notifyCall id b ∈ (runCycle kws store c).2) : id ∉ store := by
  unfold runCycle at h
  rcases c with ⟨ps, cs⟩
  intro hmem
  cases ps with
  | none =>
    cases cs with
    | none => simp at h
    | some csl =>
      simp only [List.nil_append] at h
      exact commentsNotify_fresh kws id b store csl h hmem
  | some psl =>
    cases cs with
    | none =>
      simp only [List.append_nil] at h
      exact postsNotify_fresh kws id b store psl h hmem
    | some csl =>
      simp only [List.mem_append] at h
      rcases h with h | h
      · exact postsNotify_fresh kws id b store psl h hmem
      · exact commentsNotify_fresh kws id b _ csl h
          (postsMono kws id store psl hmem)

/-- Store membership is preserved by any run of the main loop. -/
theorem cyclesMono (kws : List (List Char)) (id : List Char) :
    ∀ (store : Store) (cs : List CycleOracle), id ∈ store →
      id ∈ (runCycles kws store cs).1
  | _, [], h => h
  | store, c :: rest, h =>
    cyclesMono kws id _ rest (cycleMono kws store c id h)

/-- Every Notifier call of a run of the main loop is for an identifier
absent from the store when the run started. -/
theorem cyclesNotify_fresh (kws : List (List Char)) (id : List Char)
    (b : Bool) :
    ∀ (store : Store) (cs : List CycleOracle),
      Event.notifyCall id b ∈ (runCycles kws store cs).2 → id ∉ store := by
  intro store cs
  induction cs generalizing store with
  | nil => intro h; simp [runCycles] at h
  | cons c rest ih =>
    intro h hmem
    simp only [runCycles, List.mem_append] at h
    rcases h with h | h
    · exact cycleNotify_fresh kws store c id b h hmem
    · exact ih _ h (cycleMono kws store c id hmem)

/-- Membership in the notified identifiers means some Notifier call for
that identifier is in the trace. -/
theorem mem_notifiedIds (es : List Event) (id : List Char) :
    id ∈ notifiedIds es ↔ ∃ b, Event.notifyCall id b ∈ es := by
  unfold notifiedIds
  rw [List.mem_filterMap]
  constructor
  · rintro ⟨e, he, hsome⟩
    cases e with
    | notifyCall i bb => simp at hsome; exact ⟨bb, hsome ▸ he⟩
    | recorded i => simp at hsome
  · rintro ⟨b, hb⟩
    exact ⟨Event.notifyCall id b, hb, rfl⟩

/-- Saving the dedup state to the JSON file and loading it back restores
the same state. -/
theorem load_save (store : Store) :
    loadProcessedIDs (saveProcessedIDs store) = store := by
  induction store with
  | nil => rfl
  | cons id rest ih =>
    simpa [loadProcessedIDs, saveProcessedIDs] using ih

/-- Lowercasing distributes over the title-space-body concatenation. -/
theorem lower_postText (p : Post) :
    toLowerStr (postText p) =
      toLowerStr p.title ++ ' ' :: toLowerStr p.selftext := by
  simp [toLowerStr, postText]

/-- the character at the title/body junction of the lowered matched text is
the separating space. -/
theorem lower_postText_junction (p : Post) :
    (toLowerStr (postText p))[p.title.length]? = some ' ' := by
  rw [lower_postText]
  have hlen : (toLowerStr p.title).length = p.title.length := by
    simp [toLowerStr]
  rw [List.getElem?_append_right (by omega)]
  simp [hlen]

/-- Characterisation of a whole-word match: some in-range occurrence of the
keyword with a word boundary at both ends. -/
theorem matchWholeWord_iff (t k : List Char) :
    matchWholeWord t k = true ↔
      ∃ i, i + k.length ≤ t.length ∧ (t.drop i).take k.length = k ∧
        boundaryAt t i = true ∧ boundaryAt t (i + k.length) = true := by
  unfold matchWholeWord
  rw [List.any_eq_true]
  constructor
  · rintro ⟨i, _, hi⟩
    unfold matchWholeWordAt at hi
    simp only [Bool.and_eq_true, decide_eq_true_iff] at hi
    exact ⟨i, hi.1.1.1, hi.1.1.2, hi.1.2, hi.2⟩
  · rintro ⟨i, h1, h2, h3, h4⟩
    refine ⟨i, List.mem_range.mpr (by omega), ?_⟩
    unfold matchWholeWordAt
    simp only [Bool.and_eq_true, decide_eq_true_iff]
    exact ⟨⟨⟨h1, h2⟩, h3⟩, h4⟩

end RMonitor

namespace RMonitor

/-- C1: for any item identifier already successfully notified and recorded
(so present in the Dedup Store), no later run of the main loop — whatever
items the cycles re-fetch and whatever the call outcomes — ever makes
another Notifier call for it; the dedup state survives a restart (saving
and reloading the persisted state restores it), and the runs after the
restart never renotify the identifier either. -/
theorem claim1_notified_once (kws : List (List Char)) (store : Store)
    (id : List Char) (cs1 cs2 : List CycleOracle) (h : id ∈ store) :
    id ∉ notifiedIds (runCycles kws store cs1).2 ∧
    loadProcessedIDs (saveProcessedIDs (runCycles kws store cs1).1)
      = (runCycles kws store cs1).1 ∧
    id ∉ notifiedIds (runCycles kws
        (loadProcessedIDs (saveProcessedIDs (runCycles kws store cs1).1))
        cs2).2 := by
  refine ⟨?_, load_save _, ?_⟩
  · intro hmem
    obtain ⟨b, hb⟩ := (mem_notifiedIds _ id).mp hmem
    exact cyclesNotify_fresh kws id b store cs1 hb h
  · intro hmem
    obtain ⟨b, hb⟩ := (mem_notifiedIds _ id).mp hmem
    rw [load_save] at hb
    exact cyclesNotify_fresh kws id b _ cs2 hb (cyclesMono kws id store cs1 h)

/-- Witness for C1: with `/r/test/1` recorded, a cycle re-fetching `cePost`
(same permalink) does not notify, neither before nor after a restart. -/
theorem claim1_notified_once_witness :
    (r"/r/test/1").toList ∉ notifiedIds (runCycles keywordsConfig
      [(r"/r/test/1").toList]
      [⟨some [(cePost, ⟨false, false, false⟩)], none⟩]).2 ∧
    loadProcessedIDs (saveProcessedIDs (runCycles keywordsConfig
        [(r"/r/test/1").toList]
        [⟨some [(cePost, ⟨false, false, false⟩)], none⟩]).1)
      = (runCycles keywordsConfig [(r"/r/test/1").toList]
          [⟨some [(cePost, ⟨false, false, false⟩)], none⟩]).1 ∧
    (r"/r/test/1").toList ∉ notifiedIds (runCycles keywordsConfig
        (loadProcessedIDs (saveProcessedIDs (runCycles keywordsConfig
          [(r"/r/test/1").toList]
          [⟨some [(cePost, ⟨false, false, false⟩)], none⟩]).1))
        [⟨some [(cePost, ⟨false, false, false⟩)], none⟩]).2 :=
  claim1_notified_once keywordsConfig [(r"/r/test/1").toList]
    (r"/r/test/1").toList
    [⟨some [(cePost, ⟨false, false, false⟩)], none⟩]
    [⟨some [(cePost, ⟨false, false, false⟩)], none⟩]
    (by decide)

/-- Counterexample to C2 as stated: processing `cePost` with a successful
email send but a failed insert delivers the notification successfully, yet
leaves the identifier absent from the Dedup Store — the
delivered-implies-present direction of "present iff successfully delivered
at least once" fails. -/
theorem claim2_counterexample :
    Event.notifyCall (r"/r/test/1").toList true
        ∈ (processPost keywordsConfig [] ceOracle cePost).2 ∧
    (r"/r/test/1").toList ∉ (processPost keywordsConfig [] ceOracle cePost).1 := by
  decide

/-- C2 (amended): after a post loop run an identifier is in the Dedup Store
iff it was there before or was recorded during the run; a recording happens
only after a successful Notifier call for that identifier; and on a
Notifier failure, or when no keyword matches, one step leaves the store
unchanged. (Presence implies a successful delivery, but a successful
delivery whose record step fails leaves the identifier unrecorded.) -/
theorem claim2_store_notify (kws : List (List Char)) (store : Store)
    (ps : List (Post × ItemOracle)) (id : List Char) :
    (id ∈ (processPosts kws store ps).1 ↔
      id ∈ store ∨ Event.recorded id ∈ (processPosts kws store ps).2) ∧
    (Event.recorded id ∈ (processPosts kws store ps).2 →
      Event.notifyCall id true ∈ (processPosts kws store ps).2) ∧
    (∀ (o : ItemOracle) (p : Post), o.sendErr = true →
      (processPost kws store o p).1 = store) ∧
    (∀ (o : ItemOracle) (p : Post),
      (findKeywords (postText p) kws).isEmpty = true →
      (processPost kws store o p).1 = store) := by
  refine ⟨postsMem_iff kws id store ps, postsRecorded_notify kws id store ps,
    ?_, ?_⟩
  · intro o p h
    unfold processPost recordId
    split_ifs <;> simp_all
  · intro o p h
    unfold processPost recordId
    split_ifs <;> simp_all

/-- Witness for C2 (amended): a failed email send leaves the store
unchanged. -/
theorem claim2_store_notify_witness :
    (processPost keywordsConfig [] ⟨false, true, false⟩ cePost).1 = [] :=
  (claim2_store_notify keywordsConfig [] [] (r"/r/test/1").toList).2.2.1
    ⟨false, true, false⟩ cePost rfl

/-- C3: a keyword is reported as matched only when the lowered keyword
occurs in the lowered text with a word boundary at both ends
(`matchWholeWord`, characterised by the second conjunct); keyword `VA`
matches `Need a VA for leads` but neither `trivial` nor `IVA`. -/
theorem claim3_word_boundary :
    (∀ (text : List Char) (kws : List (List Char)) (kw : List Char),
      kw ∈ findKeywords text kws →
      matchWholeWord (toLowerStr text) (toLowerStr kw) = true) ∧
    (∀ t k : List Char, matchWholeWord t k = true ↔
      ∃ i, i + k.length ≤ t.length ∧ (t.drop i).take k.length = k ∧
        boundaryAt t i = true ∧ boundaryAt t (i + k.length) = true) ∧
    findKeywords (r"Need a VA for leads").toList [(r"VA").toList]
      = [(r"VA").toList] ∧
    findKeywords (r"trivial").toList [(r"VA").toList] = [] ∧
    findKeywords (r"IVA").toList [(r"VA").toList] = [] := by
  refine ⟨?_, matchWholeWord_iff, by decide, by decide, by decide⟩
  intro text kws kw h
  unfold findKeywords findKeywordsGen at h
  rw [List.mem_filter] at h
  simpa using h.2

/-- Witness for C3: instantiated at the matching example. -/
theorem claim3_word_boundary_witness :
    matchWholeWord (toLowerStr (r"Need a VA for leads").toList)
      (toLowerStr (r"VA").toList) = true :=
  claim3_word_boundary.1 (r"Need a VA for leads").toList [(r"VA").toList]
    (r"VA").toList (by decide)

/-- C4: when the dedup `contains` query errors (`FindOne` returns an error
other than `ErrNoDocuments`), the item is skipped for the cycle: the step
returns the unchanged store and makes no Notifier call and no record, for
posts and for comments alike — the error is never treated as "unseen". -/
theorem claim4_store_error_skip (kws : List (List Char)) (store : Store)
    (o : ItemOracle) (p : Post) (c : Comment) (h : o.findErr = true) :
    processPost kws store o p = (store, []) ∧
    processComment kws store o c = (store, []) := by
  unfold processPost processComment
  simp [h]

/-- Witness for C4: concrete skipped post and comment. -/
theorem claim4_store_error_skip_witness :
    processPost keywordsConfig [] ⟨true, false, false⟩ cePost = ([], []) ∧
    processComment keywordsConfig [] ⟨true, false, false⟩ ceComment = ([], []) :=
  claim4_store_error_skip keywordsConfig [] ⟨true, false, false⟩ cePost
    ceComment rfl

/-- C5: the record step is idempotent — recording an already-present
identifier yields the absorbed duplicate-key outcome (not a store error)
and leaves the store unchanged, and recording twice leaves the store in the
same state as recording once. -/
theorem claim5_record_idempotent :
    (∀ (store : Store) (id : List Char), id ∈ store →
      recordId store id false = (store, RecordResult.duplicateAbsorbed)) ∧
    (∀ (store : Store) (id : List Char),
      recordId (recordId store id false).1 id false
        = ((recordId store id false).1, RecordResult.duplicateAbsorbed)) := by
  constructor
  · intro store id h
    simp [recordId, h]
  · intro store id
    unfold recordId
    by_cases h : id ∈ store <;> simp [h, List.mem_cons_self]

/-- Witness for C5: recording a present identifier is absorbed. -/
theorem claim5_record_idempotent_witness :
    recordId [(r"/r/test/1").toList] (r"/r/test/1").toList false
      = ([(r"/r/test/1").toList], RecordResult.duplicateAbsorbed) :=
  claim5_record_idempotent.1 [(r"/r/test/1").toList] (r"/r/test/1").toList
    (by decide)

/-- C6: the matcher is total — a keyword whose pattern fails to compile is
skipped while the remaining keywords are still matched, when nothing
matches the result is the empty list (never an error), the actual
`findKeywords` is the instance whose compile-failure oracle is constantly
false, and the spec's no-hit example yields the empty set. -/
theorem claim6_matcher_total :
    (∀ (cf : List Char → Bool) (text kw : List Char) (rest : List (List Char)),
      cf kw = true →
      findKeywordsGen cf text (kw :: rest) = findKeywordsGen cf text rest) ∧
    (∀ (cf : List Char → Bool) (text : List Char) (kws : List (List Char)),
      (∀ kw ∈ kws, matchWholeWord (toLowerStr text) (toLowerStr kw) = false) →
      findKeywordsGen cf text kws = []) ∧
    (∀ (text : List Char) (kws : List (List Char)),
      findKeywords text kws = findKeywordsGen (fun _ => false) text kws) ∧
    findKeywords (r"hello world").toList keywordsConfig = [] := by
  refine ⟨?_, ?_, fun _ _ => rfl, by decide⟩
  · intro cf text kw rest h
    unfold findKeywordsGen
    simp [List.filter_cons, h]
  · intro cf text kws h
    unfold findKeywordsGen
    rw [List.filter_eq_nil_iff]
    intro kw hkw
    simp [h kw hkw]

/-- Witness for C6: a failing keyword is skipped and matching continues. -/
theorem claim6_matcher_total_witness :
    findKeywordsGen (fun _ => true) (r"Need a VA").toList
        [(r"VA").toList, (r"leads").toList]
      = findKeywordsGen (fun _ => true) (r"Need a VA").toList
          [(r"leads").toList] :=
  claim6_matcher_total.1 (fun _ => true) (r"Need a VA").toList
    (r"VA").toList [(r"leads").toList] rfl

/-- C7: the matcher's result is a subsequence of the keyword list, its
elements keep their configured casing (each is literally an element of the
input list), it has no duplicates whenever the keyword list has none, and
matching is case-insensitive: `leads` matches `Looking for LEADS now` and
the returned element is the configured `leads`. -/
theorem claim7_result_subsequence :
    (∀ (text : List Char) (kws : List (List Char)),
      (findKeywords text kws).Sublist kws) ∧
    (∀ (text : List Char) (kws : List (List Char)) (kw : List Char),
      kw ∈ findKeywords text kws → kw ∈ kws) ∧
    (∀ (text : List Char) (kws : List (List Char)),
      kws.Nodup → (findKeywords text kws).Nodup) ∧
    findKeywords (r"Looking for LEADS now").toList keywordsConfig
      = [(r"leads").toList] := by
  refine ⟨?_, ?_, ?_, by decide⟩
  · intro text kws
    exact List.filter_sublist kws
  · intro text kws kw h
    exact (List.filter_sublist kws).subset h
  · intro text kws h
    exact h.sublist (List.filter_sublist kws)

/-- Witness for C7: the case-insensitive example's result has no
duplicates. -/
theorem claim7_result_subsequence_witness :
    (findKeywords (r"Looking for LEADS now").toList keywordsConfig).Nodup :=
  claim7_result_subsequence.2.2.1 (r"Looking for LEADS now").toList
    keywordsConfig (by decide)

/-- C8: a fetch failure for one item kind only aborts that kind for the
cycle — the other kind is fetched and processed exactly as it would be on
its own — and the loop always continues with the remaining cycles. -/
theorem claim8_fetch_isolation :
    (∀ (kws : List (List Char)) (store : Store)
        (cs : List (Comment × ItemOracle)),
      runCycle kws store ⟨none, some cs⟩ = processComments kws store cs) ∧
    (∀ (kws : List (List Char)) (store : Store)
        (ps : List (Post × ItemOracle)),
      runCycle kws store ⟨some ps, none⟩ = processPosts kws store ps) ∧
    (∀ (kws : List (List Char)) (store : Store) (c : CycleOracle)
        (rest : List CycleOracle),
      runCycles kws store (c :: rest) =
        ((runCycles kws (runCycle kws store c).1 rest).1,
         (runCycle kws store c).2 ++
           (runCycles kws (runCycle kws store c).1 rest).2)) := by
  refine ⟨?_, ?_, ?_⟩ <;> intros <;> simp [runCycle, runCycles]

/-- C9: `fetchPosts` returns an error exactly when the transport fails, the
status is not 200 or the payload is malformed; otherwise it returns the
children's posts in response order, including the empty list for an empty
listing. -/
theorem claim9_fetch_errors :
    (∀ r : HttpResult, (∃ e, fetchPosts r = .error e) ↔
       (r.transportErr = true ∨ r.status ≠ 200 ∨ r.payload = none)) ∧
    (∀ (r : HttpResult) (listing : PostListing),
       r.transportErr = false → r.status = 200 → r.payload = some listing →
       fetchPosts r = .ok (listing.children.map fun ch => ch.data)) ∧
    (∀ r : HttpResult, r.transportErr = false → r.status = 200 →
       r.payload = some ⟨[]⟩ → fetchPosts r = .ok []) := by
  refine ⟨?_, ?_, ?_⟩
  · rintro ⟨t, s, pl⟩
    unfold fetchPosts
    cases t <;> by_cases hs : s = 200 <;> cases pl <;> simp_all
  · rintro ⟨t, s, pl⟩ listing h1 h2 h3
    unfold fetchPosts
    simp_all
  · rintro ⟨t, s, pl⟩ h1 h2 h3
    unfold fetchPosts
    simp_all

/-- Witness for C9: a clean exchange with an empty listing yields the empty
item list. -/
theorem claim9_fetch_errors_witness :
    fetchPosts ⟨false, 200, some ⟨[]⟩⟩ = .ok [] :=
  claim9_fetch_errors.2.2 ⟨false, 200, some ⟨[]⟩⟩ rfl rfl rfl

/-- Counterexample to C10 as stated: the keyword `va for` (which contains a
space) does match `postText junctionPost`, through an occurrence starting
at index 9 that straddles the title/body junction (the title is 11
characters long and the occurrence covers indices 9 through 14). -/
theorem claim10_counterexample :
    junctionKeyword ∈ findKeywords (postText junctionPost) [junctionKeyword] ∧
    matchWholeWordAt (toLowerStr (postText junctionPost))
      (toLowerStr junctionKeyword) 9 = true ∧
    9 < junctionPost.title.length ∧
    junctionPost.title.length < 9 + junctionKeyword.length := by
  decide

/-- C10 (amended): the text handed to the matcher is exactly the title, one
space, and the selftext; the junction character is always that space, a
non-word character; and a keyword whose lowered form contains no space
never matches spanning the junction — every occurrence lies entirely
within the title or entirely within the body. -/
theorem claim10_amended (p : Post) (kw : List Char)
    (hk : (' ' : Char) ∉ toLowerStr kw) :
    postText p = p.title ++ ' ' :: p.selftext ∧
    (toLowerStr (postText p))[p.title.length]? = some ' ' ∧
    wordAtPos (toLowerStr (postText p)) p.title.length = false ∧
    (∀ i, matchWholeWordAt (toLowerStr (postText p)) (toLowerStr kw) i = true →
      i + (toLowerStr kw).length ≤ p.title.length ∨ p.title.length < i) := by
  refine ⟨rfl, lower_postText_junction p, ?_, ?_⟩
  · unfold wordAtPos
    rw [lower_postText_junction p]
    decide
  · intro i hmat
    by_contra hcon
    push_neg at hcon
    obtain ⟨hle, hlt⟩ := hcon
    unfold matchWholeWordAt at hmat
    simp only [Bool.and_eq_true, decide_eq_true_iff] at hmat
    obtain ⟨⟨⟨hlen, hocc⟩, _⟩, _⟩ := hmat
    set t := toLowerStr (postText p) with ht
    set kwL := toLowerStr kw with hkw
    have hj : p.title.length - i < kwL.length := by omega
    have h1 : kwL[p.title.length - i]?
        = ((t.drop i).take kwL.length)[p.title.length - i]? := by
      rw [hocc]
    rw [List.getElem?_take_of_lt hj, List.getElem?_drop] at h1
    have h2 : i + (p.title.length - i) = p.title.length := by omega
    rw [h2] at h1
    rw [lower_postText_junction p] at h1
    have hmem := List.getElem?_mem h1
    rw [hkw] at hmem
    exact hk hmem

/-- Witness for C10 (amended): instantiated at `junctionPost` with the
space-free keyword `VA`. -/
theorem claim10_amended_witness :
    postText junctionPost = junctionPost.title ++ ' ' :: junctionPost.selftext ∧
    (toLowerStr (postText junctionPost))[junctionPost.title.length]?
      = some ' ' ∧
    wordAtPos (toLowerStr (postText junctionPost))
      junctionPost.title.length = false :=
  have h := claim10_amended junctionPost (r"VA").toList (by decide)
  ⟨h.1, h.2.1, h.2.2.1⟩

end RMonitor
